import Mathlib

set_option maxRecDepth 40000

/-
Verification development for the add-entry scaffolding tool
(scripts/add-entry/src/main.rs).  The Rust program is shallowly embedded:

* the hex color decoder (`decode_hex`, `EntryType::from_string_pair`) is
  modelled at the level of character lists (for ASCII inputs the Rust byte
  slicing coincides with character slicing);
* `str::trim_start_matches` / `trim_end_matches` (which repeatedly strip a
  pattern while it is a prefix/suffix) are modelled with an explicit fuel
  argument so that the definitions stay structurally recursive; a fuel of
  `length + 1` dominates the number of possible strips;
* the theme resolver of `query_entry_type_metadata` is modelled over the
  catalog given as an association list in the (unspecified) iteration order
  of the Rust `HashMap`;
* the entry materializer of `main` is modelled as a transformer of an
  abstract filesystem state (a set of directory paths plus an association
  list of file contents); fatal panics/`Err` returns become `Except.error`
  carrying the state at the moment of abort.
-/

namespace AddEntry

/-! ### Characters used by the program -/

def slashChar : Char := '/'

def underscoreChar : Char := '_'

def dotChar : Char := '.'

/-- The space character, written via its code point. -/
def spaceChar : Char := Char.ofNat 32

/-! ### Rust `str::trim_start_matches` / `trim_end_matches`

Both repeatedly strip the pattern while it is a prefix (resp. suffix) of the
string.  The fuel argument makes the recursion structural; `length + 1` fuel
is enough because each strip removes at least one character. -/

def trimStartAux (pat : List Char) : Nat → List Char → List Char
  | 0, s => s
  | fuel + 1, s =>
    if pat ≠ [] ∧ s.take pat.length = pat then trimStartAux pat fuel (s.drop pat.length)
    else s

def trimStartMatchesL (s pat : List Char) : List Char :=
  trimStartAux pat (s.length + 1) s

def trimEndAux (pat : List Char) : Nat → List Char → List Char
  | 0, s => s
  | fuel + 1, s =>
    if pat ≠ [] ∧ pat.length ≤ s.length ∧ s.drop (s.length - pat.length) = pat then
      trimEndAux pat fuel (s.take (s.length - pat.length))
    else s

def trimEndMatchesL (s pat : List Char) : List Char :=
  trimEndAux pat (s.length + 1) s

def trimStartMatches (s pat : String) : String :=
  String.mk (trimStartMatchesL s.data pat.data)

def trimEndMatches (s pat : String) : String :=
  String.mk (trimEndMatchesL s.data pat.data)

/-! ### Rust `str::split(sep)` and the title derivations of `main` -/

def splitOnCharL (sep : Char) : List Char → List (List Char)
  | [] => [[]]
  | c :: rest =>
    match splitOnCharL sep rest with
    | [] => [[]]
    | cur :: others => if c = sep then [] :: cur :: others else (c :: cur) :: others

def rustSplit (s : String) (sep : Char) : List String :=
  (splitOnCharL sep s.data).map String.mk

/-- `title_input.split('/').last().unwrap()` (main.rs line 334). -/
def lastSegment (s : String) : String :=
  (rustSplit s slashChar).getLastD ""

/-- Rust `str::to_lowercase` restricted to per-character lowering (they agree
on ASCII input). -/
def toLowerStr (s : String) : String :=
  String.mk (s.data.map Char.toLower)

/-- Rust `.replace(" ", "_")`: the pattern is a single character, so this is a
character map. -/
def replaceSpaceUnderscore (s : String) : String :=
  String.mk (s.data.map (fun c => if c = spaceChar then underscoreChar else c))

/-- The slug derivation of main.rs lines 362-366:
`title_input.to_lowercase().replace(" ", "_").trim_end_matches("/")`. -/
def slugPath (title : String) : String :=
  trimEndMatches (replaceSpaceUnderscore (toLowerStr title)) ("/")

/-- `entry_dir_path` (main.rs line 362). -/
def entryDirPath (title : String) : String :=
  "./entries/" ++ slugPath title

/-- `entry_file_name`: the last component of `entry_dir_path.split("/")`
(main.rs lines 367-368). -/
def entryFileNameOf (title : String) : String :=
  (rustSplit (entryDirPath title) slashChar).getLastD ""

/-- `entry_file_path` (main.rs line 389). -/
def entryFilePathOf (title : String) : String :=
  entryDirPath title ++ "/" ++ entryFileNameOf title ++ ".typ"

/-! ### Hex color decoder -/

/-- Rust `char::to_digit(16)`. -/
def toDigit16 (c : Char) : Option Nat :=
  if 48 ≤ c.toNat ∧ c.toNat ≤ 57 then some (c.toNat - 48)
  else if 97 ≤ c.toNat ∧ c.toNat ≤ 102 then some (c.toNat - 87)
  else if 65 ≤ c.toNat ∧ c.toNat ≤ 70 then some (c.toNat - 55)
  else none

/-- Rust `u8::from_str_radix(s, 16)` on a two-character slice: an optional
leading `+` is accepted (`-` is rejected for unsigned types); two hex digits
are at most 255, so no overflow check is needed. -/
def parseChunk (a b : Char) : Option Nat :=
  if a = '+' then toDigit16 b
  else
    match toDigit16 a, toDigit16 b with
    | some x, some y => some (16 * x + y)
    | _, _ => none

/-- `decode_hex` (main.rs lines 121-126): the input is cut into two-character
chunks; a trailing lone character corresponds to the out-of-bounds slice
panic of `&s[i..i + 2]` and is modelled as `none`. -/
def decodeHexL : List Char → Option (List Nat)
  | [] => some []
  | [_] => none
  | a :: b :: rest =>
    match parseChunk a b with
    | none => none
    | some v => (decodeHexL rest).map (fun l => v :: l)

def decodeHex (s : String) : Option (List Nat) :=
  decodeHexL s.data

structure EntryType where
  name : String
  r : Nat
  g : Nat
  b : Nat
deriving DecidableEq

def rgbPre : String := "rgb(\"#"

def rgbSuf : String := "\")"

/-- `EntryType::from_string_pair` (main.rs lines 129-145): trim the literal
`rgb("#` prefix and `")` suffix when present, decode the remainder as hex,
and require exactly three octets.  All failure modes (`expect`, `panic!`)
abort the process and are modelled as `none`. -/
def EntryType.fromStringPair (name colorStr : String) : Option EntryType :=
  let hex := trimEndMatches (trimStartMatches colorStr rgbPre) rgbSuf
  match decodeHex hex with
  | none => none
  | some bytes =>
    match bytes with
    | [r, g, b] => some ⟨name, r, g, b⟩
    | _ => none

/-- Spec-side re-encoder for the round-trip law: one hex digit, lowercase. -/
def hexDigitChar : Nat → Char
  | 0 => '0'
  | 1 => '1'
  | 2 => '2'
  | 3 => '3'
  | 4 => '4'
  | 5 => '5'
  | 6 => '6'
  | 7 => '7'
  | 8 => '8'
  | 9 => '9'
  | 10 => 'a'
  | 11 => 'b'
  | 12 => 'c'
  | 13 => 'd'
  | 14 => 'e'
  | 15 => 'f'
  | _ => '*'

/-- Spec-side re-encoder: one octet as two lowercase hex digits. -/
def encodeByte (n : Nat) : List Char :=
  [hexDigitChar (n / 16), hexDigitChar (n % 16)]

/-- Spec-side re-encoder: an `EntryType`'s color as six hex digits. -/
def encodeColor (e : EntryType) : String :=
  String.mk (encodeByte e.r ++ encodeByte e.g ++ encodeByte e.b)

/-! ### Theme resolver (`query_entry_type_metadata`, main.rs lines 255-271)

The Rust code iterates a `HashMap<String, Vec<(String, String)>>`.  The
catalog is modelled as the association list of its key/value pairs in the
map's (unspecified) iteration order; `get_key_value` is a key lookup and is
modelled with `find?` on the key, which is order-independent once keys are
unique. -/

/-- A theme's palette: the `(entry-name, color-string)` pairs. -/
abbrev Palette := List (String × String)

/-- The theme catalog in iteration order. -/
abbrev Catalog := List (String × Palette)

/-- Does `sub` occur as a contiguous run somewhere in the list? -/
def containsSubL (sub : List Char) : List Char → Bool
  | [] => decide (sub = [])
  | c :: rest => if (c :: rest).take sub.length = sub then true else containsSubL sub rest

/-- Rust `user_theme.contains(theme)`: substring containment. -/
def strContains (s sub : String) : Bool :=
  containsSubL sub.data s.data

/-- The inner loop of main.rs lines 256-260: first catalog entry whose theme
name occurs in the candidate text. -/
def findInCatalog (c : String) : Catalog → Option Palette
  | [] => none
  | tp :: rest => if strContains c tp.1 then some tp.2 else findInCatalog c rest

/-- The outer loop of main.rs lines 255-261 over the user-theme candidates. -/
def findThemeMatch : List String → Catalog → Option Palette
  | [], _ => none
  | c :: cs, cat =>
    match findInCatalog c cat with
    | some p => some p
    | none => findThemeMatch cs cat

/-- The resolver of main.rs lines 255-271: first match by candidate, else the
entry at key `"radial"`, else the first entry in iteration order, else the
`expect` panic (`none`). -/
def resolveTheme (cat : Catalog) (cands : List String) : Option Palette :=
  match findThemeMatch cands cat with
  | some p => some p
  | none =>
    match cat.find? (fun tp => tp.1 == "radial") with
    | some tp => some tp.2
    | none =>
      match cat with
      | [] => none
      | tp :: _ => some tp.2

/-- The palette pushed through the color decoder: `entry_types_vec`
(main.rs lines 279-280), the list of `EntryType` values backing the type
scroll.  A decode failure is the fatal `expect` inside `from_string_pair`. -/
def entryTypesOfPalette (p : Palette) : Option (List EntryType) :=
  p.mapM (fun pr => EntryType.fromStringPair pr.1 pr.2)

/-- The full pipeline from catalog and candidate texts to the scroll's
backing list. -/
def queryEntryTypes (cat : Catalog) (cands : List String) : Option (List EntryType) :=
  (resolveTheme cat cands).bind entryTypesOfPalette

/-! ### Abstract filesystem and the entry materializer (main.rs lines 333-416)

State: a set of directory paths and an association list of file contents,
both keyed by the literal path strings the program constructs.  Fatal
failures return `Except.error` carrying the error kind and the state at the
moment of abort (the program exits immediately, leaving the disk in that
state). -/

structure FS where
  dirs : List String
  files : List (String × String)
deriving DecidableEq

inductive MatError where
  | emptyTitle
  | dirCreateFailed
  | entryAlreadyExists
  | entryCreateFailed
  | aggregatorOpenFailed
deriving DecidableEq

instance {ε α : Type} [DecidableEq ε] [DecidableEq α] : DecidableEq (Except ε α) := fun x y =>
  match x, y with
  | .ok a, .ok b =>
    if h : a = b then isTrue (by rw [h])
    else isFalse (fun he => h (Except.ok.inj he))
  | .error a, .error b =>
    if h : a = b then isTrue (by rw [h])
    else isFalse (fun he => h (Except.error.inj he))
  | .ok _, .error _ => isFalse (fun he => Except.noConfusion he)
  | .error _, .ok _ => isFalse (fun he => Except.noConfusion he)

/-- The user-visible message of the one `Err` return of `main`
(main.rs line 345); the other kinds abort via `expect`/`panic` messages that
interpolate the offending path. -/
def matErrorMessage : MatError → String
  | .emptyTitle => "title must be specified!"
  | .dirCreateFailed => "Failed to make part of entry directory"
  | .entryAlreadyExists => "Failed to make entry typst file"
  | .entryCreateFailed => "Failed to make entry typst file"
  | .aggregatorOpenFailed => "Failed to open ./entries/entries.typ"

/-- `main` returns `Result<(), String>`: exit code 0 on `Ok`, nonzero on
`Err`/panic. -/
def exitCodeOf (r : Except (MatError × FS) FS) : Nat :=
  match r with
  | .ok _ => 0
  | .error _ => 1

/-- First-match association-list lookup of a file's content. -/
def lookupF : List (String × String) → String → Option String
  | [], _ => none
  | kv :: rest, k => if kv.1 = k then some kv.2 else lookupF rest k

/-- Parent path: all `/`-separated components but the last. -/
def joinSlashL : List (List Char) → List Char
  | [] => []
  | [x] => x
  | x :: y :: rest => x ++ slashChar :: joinSlashL (y :: rest)

def parentDir (p : String) : String :=
  String.mk (joinSlashL ((splitOnCharL slashChar p.data).dropLast))

/-- `fs::create_dir(path).or_else(AlreadyExists => Ok(()))` (main.rs lines
375-382): an existing directory or file at the path yields `AlreadyExists`,
which is tolerated; creation in a missing parent directory is a fatal error
(`NotFound`). -/
def createDirTolerant (fs : FS) (p : String) : Except Unit FS :=
  if p ∈ fs.dirs then .ok fs
  else if (lookupF fs.files p).isSome then .ok fs
  else if parentDir p ∈ fs.dirs then .ok { fs with dirs := p :: fs.dirs }
  else .error ()

/-- The directory-creation loop of main.rs lines 370-387: successively create
each `/`-prefix of the entry directory, threading the accumulated path. -/
def createDirChain (fs : FS) (acc : String) : List String → Except (MatError × FS) FS
  | [] => .ok fs
  | p :: rest =>
    match createDirTolerant fs (acc ++ "/" ++ p) with
    | .ok fs2 => createDirChain fs2 (acc ++ "/" ++ p) rest
    | .error _ => .error (.dirCreateFailed, fs)

/-- The prefix paths the loop attempts, in order. -/
def chainPaths (acc : String) : List String → List String
  | [] => []
  | p :: rest => (acc ++ "/" ++ p) :: chainPaths (acc ++ "/" ++ p) rest

/-- `fs::File::create_new` (main.rs line 390): exclusive creation — an
existing file is the fatal `EntryAlreadyExists`; a missing parent directory
is a different fatal error with the same panic message. -/
def createFileNew (fs : FS) (path content : String) : Except (MatError × FS) FS :=
  match lookupF fs.files path with
  | some _ => .error (.entryAlreadyExists, fs)
  | none =>
    if parentDir path ∈ fs.dirs then .ok { fs with files := (path, content) :: fs.files }
    else .error (.entryCreateFailed, fs)

/-- Append `extra` to the file at `path`, keeping keys unchanged. -/
def appendUpd (path extra : String) : List (String × String) → List (String × String)
  | [] => []
  | kv :: rest =>
    (if kv.1 = path then (kv.1, kv.2 ++ extra) else kv) :: appendUpd path extra rest

/-- `File::options().append(true).open(path)` then `write_all` (main.rs lines
399-414): the file must already exist (no create flag), and the write appends
the bytes to its content. -/
def appendToFile (fs : FS) (path extra : String) : Except (MatError × FS) FS :=
  match lookupF fs.files path with
  | some _ => .ok { fs with files := appendUpd path extra fs.files }
  | none => .error (.aggregatorOpenFailed, fs)

/-- The aggregator file path. -/
def entriesTyp : String := "./entries/entries.typ"

/-- The menu-selection record after date normalization and ANSI stripping:
exactly the values `main` substitutes into the template. -/
structure MaterializeInput where
  section_ : String
  title : String
  entryType : String
  dateStr : String
  author : String
  witness : String
deriving DecidableEq

/-- The templated entry file content (main.rs lines 348-360); substitutions
are literal, no escaping. -/
def entryContent (sec title entryType dateStr author witness : String) : String :=
  "#import \"/packages.typ\": *\n#import components: *\n// TODO: add comment\n#show: create-entry.with(\n    section: \"" ++ sec ++ "\",\n    title: \"" ++ title ++ "\",\n    type: \"" ++ entryType ++ "\",\n    date: " ++ dateStr ++ ",\n    author: \"" ++ author ++ "\",\n    witness: \"" ++ witness ++ "\",\n)"

/-- The entry materializer: main.rs lines 333-416 after the menu returns.
Title-leaf validation, directory chain, exclusive entry-file creation, and
the aggregator append, in the program's order. -/
def materializeEntry (inp : MaterializeInput) (fs : FS) : Except (MatError × FS) FS :=
  let title := lastSegment inp.title
  if title.length = 0 then .error (.emptyTitle, fs)
  else
    let content := entryContent inp.section_ title inp.entryType inp.dateStr inp.author inp.witness
    let parts := rustSplit (entryDirPath inp.title) slashChar
    match createDirChain fs (parts.headD "") parts.tail with
    | .error e => .error e
    | .ok fs2 =>
      match createFileNew fs2 (entryFilePathOf inp.title) content with
      | .error e => .error e
      | .ok fs3 =>
        appendToFile fs3 entriesTyp
          ("\n\n#include \"" ++ trimStartMatches (entryFilePathOf inp.title) "." ++ "\"")

/-! ### Concrete states used by witnesses and counterexamples -/

/-- A prepared notebook: current directory, `./entries` directory, and an
empty aggregator file. -/
def fsA : FS := ⟨[".", "./entries"], [(entriesTyp, "")]⟩

/-- The S1 menu record after date normalization. -/
def inpS1 : MaterializeInput :=
  ⟨"body", "First Entry", "build", "datetime(year: 2024, month: 03, day: 07)", "Ada", ""⟩

/-- The state after a successful S1 run on `fsA`. -/
def fsS1 : FS :=
  ⟨["./entries/first_entry", ".", "./entries"],
   [("./entries/first_entry/first_entry.typ",
     entryContent "body" "First Entry" "build" "datetime(year: 2024, month: 03, day: 07)" "Ada" ""),
    (entriesTyp, "\n\n#include \"/entries/first_entry/first_entry.typ\"")]⟩

/-! ### C10: title derivations -/

/-- C10: `slug_path("My Entry/Sub/")` is `"my_entry/sub"` (lowercased, spaces
to underscores, trailing slash removed); `title_leaf("My Entry/Sub")` is
`"Sub"`; `title_leaf("")` is empty and the materializer rejects the empty
title with the EmptyTitle error, touching nothing. -/
theorem title_derivations :
    slugPath ("My Entry/Sub/") = "my_entry/sub"
    ∧ lastSegment ("My Entry/Sub") = "Sub"
    ∧ lastSegment ("") = ""
    ∧ materializeEntry ⟨"body", "", "build", "d", "Ada", "w"⟩ fsA
        = .error (.emptyTitle, fsA) := by
  decide

/-! ### C4: empty title leaf is rejected before any filesystem write -/

/-- C4: whenever the last `/`-separated segment of the title is empty, the
materializer aborts with the EmptyTitle error carrying the message
`"title must be specified!"`, the exit code is nonzero, and the filesystem
state is returned unchanged (no directory, no entry file, no append). -/
theorem materialize_empty_leaf_rejected (inp : MaterializeInput) (fs : FS)
    (h : lastSegment inp.title = "") :
    materializeEntry inp fs = .error (.emptyTitle, fs)
    ∧ exitCodeOf (materializeEntry inp fs) = 1
    ∧ matErrorMessage .emptyTitle = "title must be specified!" := by
  have h0 : (lastSegment inp.title).length = 0 := by rw [h]; rfl
  have hm : materializeEntry inp fs = .error (.emptyTitle, fs) := by
    unfold materializeEntry
    rw [if_pos h0]
  exact ⟨hm, by rw [hm]; rfl, rfl⟩

/-- Witness for C4 at the empty title on the prepared notebook. -/
theorem materialize_empty_leaf_rejected_witness :
    materializeEntry ⟨"appendix", "", "notes", "d", "Ada", ""⟩ fsA
        = .error (.emptyTitle, fsA)
    ∧ exitCodeOf (materializeEntry ⟨"appendix", "", "notes", "d", "Ada", ""⟩ fsA) = 1
    ∧ matErrorMessage .emptyTitle = "title must be specified!" :=
  materialize_empty_leaf_rejected ⟨"appendix", "", "notes", "d", "Ada", ""⟩ fsA (by decide)

/-! ### C7: the S3 scenario (title with a trailing slash) -/

/-- C7 counterexample: with title input `"Nested/Deep Entry/"` the run does
NOT succeed — the trailing slash makes the last `/`-separated segment empty,
so the program rejects the title and writes nothing, contrary to the claim
that the run succeeds and creates `deep_entry.typ`. -/
theorem materialize_trailing_slash_counterexample :
    materializeEntry ⟨"body", "Nested/Deep Entry/", "build", "d", "Ada", "w"⟩ fsA
      = .error (.emptyTitle, fsA) := by
  decide

/-- The state after a successful run with title `"Nested/Deep Entry"`. -/
def fsC7 : FS :=
  ⟨["./entries/nested/deep_entry", "./entries/nested", ".", "./entries"],
   [("./entries/nested/deep_entry/deep_entry.typ",
     entryContent "body" "Deep Entry" "build" "d" "Ada" "w"),
    (entriesTyp, "\n\n#include \"/entries/nested/deep_entry/deep_entry.typ\"")]⟩

/-- C7 amended: with title input `"Nested/Deep Entry"` (no trailing slash —
the trailing-slash input of the claim is rejected as an empty leaf) the run
succeeds, the directory `./entries/nested/deep_entry` is created, the file
`deep_entry.typ` is created inside it, and the template's title field is
`"Deep Entry"`. -/
theorem materialize_nested_title_amended :
    materializeEntry ⟨"body", "Nested/Deep Entry", "build", "d", "Ada", "w"⟩ fsA = .ok fsC7
    ∧ "./entries/nested" ∈ fsC7.dirs
    ∧ "./entries/nested/deep_entry" ∈ fsC7.dirs
    ∧ lookupF fsC7.files ("./entries/nested/deep_entry/deep_entry.typ")
        = some (entryContent "body" "Deep Entry" "build" "d" "Ada" "w") := by
  decide

/-! ### C5: color-decoder failure conditions -/

theorem decodeHexL_odd : ∀ (l : List Char), l.length % 2 = 1 → decodeHexL l = none
  | [] => fun h => absurd h (by decide)
  | [_] => fun _ => rfl
  | a :: b :: rest => fun h => by
    have h2 : rest.length % 2 = 1 := by
      have : (a :: b :: rest).length = rest.length + 2 := by simp
      omega
    have ih := decodeHexL_odd rest h2
    cases hp : parseChunk a b with
    | none => simp [decodeHexL, hp]
    | some v => simp [decodeHexL, hp, ih]

theorem parseChunk_none_left (a b : Char) (ha : toDigit16 a = none) (hap : a ≠ '+') :
    parseChunk a b = none := by
  unfold parseChunk
  rw [if_neg hap]
  cases hb : toDigit16 b <;> simp [ha, hb]

theorem parseChunk_none_right (a b : Char) (hb : toDigit16 b = none) :
    parseChunk a b = none := by
  unfold parseChunk
  by_cases hap : a = '+'
  · rw [if_pos hap]; exact hb
  · rw [if_neg hap]
    cases ha : toDigit16 a <;> simp [ha, hb]

theorem decodeHexL_bad_char : ∀ (l : List Char), (∃ c ∈ l, toDigit16 c = none ∧ c ≠ '+') →
    decodeHexL l = none
  | [] => fun h => absurd h (by simp)
  | [_] => fun _ => rfl
  | a :: b :: rest => fun h => by
    obtain ⟨c, hc, hcd, hcp⟩ := h
    simp only [List.mem_cons] at hc
    rcases hc with rfl | rfl | hc
    · simp [decodeHexL, parseChunk_none_left _ b hcd hcp]
    · simp [decodeHexL, parseChunk_none_right a _ hcd]
    · have ih := decodeHexL_bad_char rest ⟨c, hc, hcd, hcp⟩
      cases hp : parseChunk a b <;> simp [decodeHexL, hp, ih]

theorem fromStringPair_none_of_decode_none (name s : String)
    (h : decodeHex (trimEndMatches (trimStartMatches s rgbPre) rgbSuf) = none) :
    EntryType.fromStringPair name s = none := by
  simp only [EntryType.fromStringPair, h]

/-- C5 counterexample: the input `"010203"` deviates from the exact shape
`rgb("#...")` — it has neither the literal prefix nor the suffix — yet the
parse SUCCEEDS (Rust `trim_start_matches`/`trim_end_matches` strip the
literals only when present), contradicting the claim that every deviation
from the shape fails and aborts. -/
theorem fromStringPair_shape_counterexample :
    EntryType.fromStringPair "build" "010203" = some ⟨"build", 1, 2, 3⟩ := by
  decide

/-- C5 amended: after stripping every leading repetition of `rgb("#` and
every trailing repetition of `")` (stripping happens only when the literal is
present; its absence does not make the parse fail), decoding fails fatally
whenever the remaining body has odd length, contains a character that is
neither a hex digit nor `+` (the integer parser accepts a leading `+` in a
chunk), or decodes to other than exactly 3 octets. -/
theorem fromStringPair_failure_conditions_amended (name s : String) :
    ((trimEndMatches (trimStartMatches s rgbPre) rgbSuf).length % 2 = 1 →
      EntryType.fromStringPair name s = none)
    ∧ ((∃ c ∈ (trimEndMatches (trimStartMatches s rgbPre) rgbSuf).data,
          toDigit16 c = none ∧ c ≠ '+') →
        EntryType.fromStringPair name s = none)
    ∧ (∀ bytes, decodeHex (trimEndMatches (trimStartMatches s rgbPre) rgbSuf) = some bytes →
        bytes.length ≠ 3 →
        EntryType.fromStringPair name s = none) := by
  refine ⟨?_, ?_, ?_⟩
  · intro h
    exact fromStringPair_none_of_decode_none name s (decodeHexL_odd _ h)
  · intro h
    exact fromStringPair_none_of_decode_none name s (decodeHexL_bad_char _ h)
  · intro bytes hd h3
    simp only [EntryType.fromStringPair, hd]
    rcases bytes with _ | ⟨r, _ | ⟨g, _ | ⟨b, _ | ⟨x, rest⟩⟩⟩⟩
    · rfl
    · rfl
    · rfl
    · exact absurd rfl h3
    · rfl

/-- Witness for C5 amended: an odd-length body, a body with a non-hex
character, and a body decoding to four octets all fail. -/
theorem fromStringPair_failure_conditions_amended_witness :
    EntryType.fromStringPair "n" "rgb(\"#123\")" = none
    ∧ EntryType.fromStringPair "n" "rgb(\"#zz\")" = none
    ∧ EntryType.fromStringPair "n" "rgb(\"#01020304\")" = none :=
  ⟨(fromStringPair_failure_conditions_amended "n" "rgb(\"#123\")").1 (by decide),
   (fromStringPair_failure_conditions_amended "n" "rgb(\"#zz\")").2.1 (by decide),
   (fromStringPair_failure_conditions_amended "n" "rgb(\"#01020304\")").2.2
     [1, 2, 3, 4] (by decide) (by decide)⟩

/-! ### C6: color decode round-trip -/

/-- The value of a two-hex-digit pair, as described by the spec. -/
def hexPairVal (a b : Char) : Nat :=
  16 * (toDigit16 a).getD 0 + (toDigit16 b).getD 0

theorem data_mk (l : List Char) : (String.mk l).data = l := rfl

theorem toDigit16_lt {c : Char} {v : Nat} (h : toDigit16 c = some v) : v < 16 := by
  unfold toDigit16 at h
  split_ifs at h with h1 h2 h3 <;> (injection h with h'; omega)

theorem ne_of_toDigit16_some {c : Char} {v : Nat} (h : toDigit16 c = some v)
    (x : Char) (hx : toDigit16 x = none) : c ≠ x := by
  intro he
  rw [he, hx] at h
  cases h

theorem toDigit16_hexDigitChar : ∀ v < 16, toDigit16 (hexDigitChar v) = some v := by
  decide

theorem trimStartAux_strip (pat : List Char) (fuel : Nat) (s : List Char)
    (h : pat ≠ [] ∧ s.take pat.length = pat) :
    trimStartAux pat (fuel + 1) s = trimStartAux pat fuel (s.drop pat.length) := by
  rw [trimStartAux, if_pos h]

theorem trimStartAux_stop (pat : List Char) (fuel : Nat) (s : List Char)
    (h : ¬(pat ≠ [] ∧ s.take pat.length = pat)) :
    trimStartAux pat (fuel + 1) s = s := by
  rw [trimStartAux, if_neg h]

theorem trimEndAux_strip (pat : List Char) (fuel : Nat) (s : List Char) (k : Nat)
    (hk : s.length - pat.length = k)
    (h : pat ≠ [] ∧ pat.length ≤ s.length ∧ s.drop k = pat) :
    trimEndAux pat (fuel + 1) s = trimEndAux pat fuel (s.take k) := by
  subst hk
  rw [trimEndAux, if_pos ⟨h.1, h.2.1, h.2.2⟩]

theorem trimEndAux_stop (pat : List Char) (fuel : Nat) (s : List Char)
    (h : ¬(pat ≠ [] ∧ pat.length ≤ s.length ∧ s.drop (s.length - pat.length) = pat)) :
    trimEndAux pat (fuel + 1) s = s := by
  rw [trimEndAux, if_neg h]

theorem parseChunk_some (a b : Char) (x y : Nat) (hap : a ≠ '+')
    (ha : toDigit16 a = some x) (hb : toDigit16 b = some y) :
    parseChunk a b = some (16 * x + y) := by
  unfold parseChunk
  rw [if_neg hap, ha, hb]

/-- C6: for every six hex digits (upper or lower case), decoding
`rgb("#c0c1c2c3c4c5")` succeeds and yields the triple of the three hex-pair
values, and re-encoding that triple gives six hex digits with the same digit
values as the input (that is, the input up to letter case). -/
theorem fromStringPair_roundTrip (name : String) (c0 c1 c2 c3 c4 c5 : Char)
    (h0 : (toDigit16 c0).isSome = true) (h1 : (toDigit16 c1).isSome = true)
    (h2 : (toDigit16 c2).isSome = true) (h3 : (toDigit16 c3).isSome = true)
    (h4 : (toDigit16 c4).isSome = true) (h5 : (toDigit16 c5).isSome = true) :
    EntryType.fromStringPair name
        (String.mk (rgbPre.data ++ ([c0, c1, c2, c3, c4, c5] ++ rgbSuf.data)))
      = some ⟨name, hexPairVal c0 c1, hexPairVal c2 c3, hexPairVal c4 c5⟩
    ∧ (encodeColor ⟨name, hexPairVal c0 c1, hexPairVal c2 c3, hexPairVal c4 c5⟩).data.map
        toDigit16
      = [c0, c1, c2, c3, c4, c5].map toDigit16 := by
  obtain ⟨v0, hv0⟩ := Option.isSome_iff_exists.mp h0
  obtain ⟨v1, hv1⟩ := Option.isSome_iff_exists.mp h1
  obtain ⟨v2, hv2⟩ := Option.isSome_iff_exists.mp h2
  obtain ⟨v3, hv3⟩ := Option.isSome_iff_exists.mp h3
  obtain ⟨v4, hv4⟩ := Option.isSome_iff_exists.mp h4
  obtain ⟨v5, hv5⟩ := Option.isSome_iff_exists.mp h5
  have hb0 := toDigit16_lt hv0
  have hb1 := toDigit16_lt hv1
  have hb2 := toDigit16_lt hv2
  have hb3 := toDigit16_lt hv3
  have hb4 := toDigit16_lt hv4
  have hb5 := toDigit16_lt hv5
  have h0r : c0 ≠ 'r' := ne_of_toDigit16_some hv0 'r' (by decide)
  have h4q : c4 ≠ (Char.ofNat 34) := ne_of_toDigit16_some hv4 (Char.ofNat 34) (by decide)
  have h0p : c0 ≠ '+' := ne_of_toDigit16_some hv0 '+' (by decide)
  have h2p : c2 ≠ '+' := ne_of_toDigit16_some hv2 '+' (by decide)
  have h4p : c4 ≠ '+' := ne_of_toDigit16_some hv4 '+' (by decide)
  have hpre : rgbPre.data = ['r', 'g', 'b', '(', Char.ofNat 34, '#'] := by decide
  have hsuf : rgbSuf.data = [Char.ofNat 34, ')'] := by decide
  have e1 : trimStartMatchesL (rgbPre.data ++ ([c0, c1, c2, c3, c4, c5] ++ rgbSuf.data))
      rgbPre.data = [c0, c1, c2, c3, c4, c5] ++ rgbSuf.data := by
    unfold trimStartMatchesL
    have hlen : (rgbPre.data ++ ([c0, c1, c2, c3, c4, c5] ++ rgbSuf.data)).length = 14 := by
      simp [hpre, hsuf]
    rw [hlen]
    rw [trimStartAux_strip _ _ _ ⟨by decide, by rw [List.take_left]⟩]
    rw [List.drop_left]
    refine trimStartAux_stop _ _ _ ?_
    rintro ⟨-, htake⟩
    rw [hpre, hsuf] at htake
    simp at htake
    exact h0r htake.1
  have e2 : trimEndMatchesL ([c0, c1, c2, c3, c4, c5] ++ rgbSuf.data) rgbSuf.data
      = [c0, c1, c2, c3, c4, c5] := by
    unfold trimEndMatchesL
    have hlen : ([c0, c1, c2, c3, c4, c5] ++ rgbSuf.data).length = 8 := by
      simp [hsuf]
    rw [hlen]
    rw [trimEndAux_strip _ _ _ 6 (by simp [hsuf])
      ⟨by rw [hsuf]; decide, by rw [hlen, hsuf]; decide,
       List.drop_left' (by rfl)⟩]
    rw [List.take_left' (by rfl)]
    refine trimEndAux_stop _ _ _ ?_
    rintro ⟨-, -, hdrop⟩
    rw [hsuf] at hdrop
    simp at hdrop
    exact h4q hdrop.1
  have p01 := parseChunk_some c0 c1 v0 v1 h0p hv0 hv1
  have p23 := parseChunk_some c2 c3 v2 v3 h2p hv2 hv3
  have p45 := parseChunk_some c4 c5 v4 v5 h4p hv4 hv5
  have e3 : decodeHexL [c0, c1, c2, c3, c4, c5]
      = some [16 * v0 + v1, 16 * v2 + v3, 16 * v4 + v5] := by
    simp [decodeHexL, p01, p23, p45]
  have E1 : trimStartMatches
      (String.mk (rgbPre.data ++ ([c0, c1, c2, c3, c4, c5] ++ rgbSuf.data))) rgbPre
      = String.mk ([c0, c1, c2, c3, c4, c5] ++ rgbSuf.data) := by
    unfold trimStartMatches
    rw [data_mk, e1]
  have E2 : trimEndMatches (String.mk ([c0, c1, c2, c3, c4, c5] ++ rgbSuf.data)) rgbSuf
      = String.mk [c0, c1, c2, c3, c4, c5] := by
    unfold trimEndMatches
    rw [data_mk, e2]
  have hpv0 : hexPairVal c0 c1 = 16 * v0 + v1 := by
    unfold hexPairVal
    rw [hv0, hv1]
    rfl
  have hpv1 : hexPairVal c2 c3 = 16 * v2 + v3 := by
    unfold hexPairVal
    rw [hv2, hv3]
    rfl
  have hpv2 : hexPairVal c4 c5 = 16 * v4 + v5 := by
    unfold hexPairVal
    rw [hv4, hv5]
    rfl
  constructor
  · simp only [EntryType.fromStringPair, E1, E2]
    rw [show decodeHex (String.mk [c0, c1, c2, c3, c4, c5])
        = decodeHexL [c0, c1, c2, c3, c4, c5] from rfl]
    rw [e3, hpv0, hpv1, hpv2]
  · have hd0 : (16 * v0 + v1) / 16 = v0 := by omega
    have hm0 : (16 * v0 + v1) % 16 = v1 := by omega
    have hd1 : (16 * v2 + v3) / 16 = v2 := by omega
    have hm1 : (16 * v2 + v3) % 16 = v3 := by omega
    have hd2 : (16 * v4 + v5) / 16 = v4 := by omega
    have hm2 : (16 * v4 + v5) % 16 = v5 := by omega
    simp only [encodeColor, encodeByte, data_mk, hpv0, hpv1, hpv2,
      hd0, hm0, hd1, hm1, hd2, hm2]
    simp [toDigit16_hexDigitChar v0 hb0, toDigit16_hexDigitChar v1 hb1,
      toDigit16_hexDigitChar v2 hb2, toDigit16_hexDigitChar v3 hb3,
      toDigit16_hexDigitChar v4 hb4, toDigit16_hexDigitChar v5 hb5,
      hv0, hv1, hv2, hv3, hv4, hv5]

/-- Witness for C6 at the mixed-case hex string `0aF3cD`. -/
theorem fromStringPair_roundTrip_witness :
    EntryType.fromStringPair "n"
        (String.mk (rgbPre.data ++ (['0', 'a', 'F', '3', 'c', 'D'] ++ rgbSuf.data)))
      = some ⟨"n", hexPairVal '0' 'a', hexPairVal 'F' '3', hexPairVal 'c' 'D'⟩
    ∧ (encodeColor ⟨"n", hexPairVal '0' 'a', hexPairVal 'F' '3', hexPairVal 'c' 'D'⟩).data.map
        toDigit16
      = ['0', 'a', 'F', '3', 'c', 'D'].map toDigit16 :=
  fromStringPair_roundTrip "n" '0' 'a' 'F' '3' 'c' 'D'
    (by decide) (by decide) (by decide) (by decide) (by decide) (by decide)

/-! ### C2: theme-resolution precedence -/

theorem findInCatalog_eq_none_iff (c : String) : ∀ (cat : Catalog),
    findInCatalog c cat = none ↔ ∀ tp ∈ cat, ¬ strContains c tp.1 = true
  | [] => by simp [findInCatalog]
  | tp :: rest => by
    unfold findInCatalog
    by_cases h : strContains c tp.1 = true
    · simp [h]
    · simp [h, findInCatalog_eq_none_iff c rest]

theorem findInCatalog_eq_some (c : String) : ∀ (cat : Catalog) (p : Palette),
    findInCatalog c cat = some p → ∃ tp ∈ cat, strContains c tp.1 = true ∧ p = tp.2
  | [], p => by simp [findInCatalog]
  | tp :: rest, p => by
    unfold findInCatalog
    by_cases h : strContains c tp.1 = true
    · rw [if_pos h]
      intro he
      exact ⟨tp, List.mem_cons_self tp rest, h, (Option.some.inj he).symm⟩
    · rw [if_neg h]
      intro he
      obtain ⟨tq, hmem, hc, hp⟩ := findInCatalog_eq_some c rest p he
      exact ⟨tq, List.mem_cons_of_mem tp hmem, hc, hp⟩

theorem findThemeMatch_eq_none_iff (cat : Catalog) : ∀ (cands : List String),
    findThemeMatch cands cat = none ↔ ∀ c ∈ cands, findInCatalog c cat = none
  | [] => by simp [findThemeMatch]
  | c :: cs => by
    unfold findThemeMatch
    cases h : findInCatalog c cat with
    | some p => simp [h]
    | none => simp [h, findThemeMatch_eq_none_iff cat cs]

theorem findThemeMatch_eq_some (cat : Catalog) : ∀ (cands : List String) (p : Palette),
    findThemeMatch cands cat = some p → ∃ c ∈ cands, findInCatalog c cat = some p
  | [], p => by simp [findThemeMatch]
  | c :: cs, p => by
    unfold findThemeMatch
    cases h : findInCatalog c cat with
    | some q =>
      intro he
      exact ⟨c, List.mem_cons_self c cs, h.trans (congrArg some (Option.some.inj he))⟩
    | none =>
      intro he
      obtain ⟨c2, hmem, hc2⟩ := findThemeMatch_eq_some cat cs p he
      exact ⟨c2, List.mem_cons_of_mem c hmem, hc2⟩

theorem findThemeMatch_nil : ∀ (cands : List String), findThemeMatch cands [] = none
  | [] => rfl
  | c :: cs => by
    simp [findThemeMatch, findInCatalog, findThemeMatch_nil cs]

theorem findThemeMatch_isSome_of_match (cat : Catalog) (cands : List String)
    (h : ∃ c ∈ cands, ∃ tp ∈ cat, strContains c tp.1 = true) :
    findThemeMatch cands cat ≠ none := by
  intro hn
  obtain ⟨c, hc, tp, htp, hcon⟩ := h
  have := (findThemeMatch_eq_none_iff cat cands).mp hn c hc
  exact (findInCatalog_eq_none_iff c cat).mp this tp htp hcon

/-- C2: the resolver's precedence: a candidate text containing a cataloged
theme name selects that theme's palette; with no match, the palette at key
`"radial"` is returned when present; with no `"radial"` key, the first
cataloged palette in iteration order; and an empty catalog fails fatally
(NoThemesAvailable, modelled as `none`). -/
theorem resolveTheme_precedence (cat : Catalog) (cands : List String) :
    ((∃ c ∈ cands, ∃ tp ∈ cat, strContains c tp.1 = true) →
      ∃ tp ∈ cat, (∃ c ∈ cands, strContains c tp.1 = true)
        ∧ resolveTheme cat cands = some tp.2)
    ∧ ((¬ ∃ c ∈ cands, ∃ tp ∈ cat, strContains c tp.1 = true) →
        ∀ tp, cat.find? (fun x => x.1 == "radial") = some tp →
          resolveTheme cat cands = some tp.2)
    ∧ ((¬ ∃ c ∈ cands, ∃ tp ∈ cat, strContains c tp.1 = true) →
        cat.find? (fun x => x.1 == "radial") = none →
          ∀ t p rest, cat = (t, p) :: rest → resolveTheme cat cands = some p)
    ∧ (cat = [] → resolveTheme cat cands = none) := by
  refine ⟨?_, ?_, ?_, ?_⟩
  · intro h
    cases hm : findThemeMatch cands cat with
    | none => exact absurd hm (findThemeMatch_isSome_of_match cat cands h)
    | some p =>
      obtain ⟨c, hc, hfind⟩ := findThemeMatch_eq_some cat cands p hm
      obtain ⟨tp, htp, hcon, hp⟩ := findInCatalog_eq_some c cat p hfind
      refine ⟨tp, htp, ⟨c, hc, hcon⟩, ?_⟩
      unfold resolveTheme
      rw [hm, hp]
  · intro h tp hfind
    have hm : findThemeMatch cands cat = none := by
      rw [findThemeMatch_eq_none_iff]
      intro c hc
      rw [findInCatalog_eq_none_iff]
      intro tq htq hcon
      exact h ⟨c, hc, tq, htq, hcon⟩
    unfold resolveTheme
    rw [hm, hfind]
  · intro h hfind t p rest hcat
    have hm : findThemeMatch cands cat = none := by
      rw [findThemeMatch_eq_none_iff]
      intro c hc
      rw [findInCatalog_eq_none_iff]
      intro tq htq hcon
      exact h ⟨c, hc, tq, htq, hcon⟩
    unfold resolveTheme
    rw [hm, hfind, hcat]
  · intro hcat
    subst hcat
    unfold resolveTheme
    rw [findThemeMatch_nil]
    rfl

/-- Witness for C2: the four precedence cases at concrete catalogs. -/
theorem resolveTheme_precedence_witness :
    (∃ tp ∈ ([("radial", [("build", "c1")]), ("polar", [("notes", "c2")])] : Catalog),
      (∃ c ∈ ["dark-radial"], strContains c tp.1 = true)
        ∧ resolveTheme [("radial", [("build", "c1")]), ("polar", [("notes", "c2")])]
            ["dark-radial"] = some tp.2)
    ∧ resolveTheme [("radial", [("build", "c1")]), ("polar", [("notes", "c2")])] ["x"]
        = some [("build", "c1")]
    ∧ resolveTheme [("polar", [("notes", "c2")])] ["x"] = some [("notes", "c2")]
    ∧ resolveTheme [] ["x"] = none :=
  ⟨(resolveTheme_precedence [("radial", [("build", "c1")]), ("polar", [("notes", "c2")])]
      ["dark-radial"]).1 (by decide),
   (resolveTheme_precedence [("radial", [("build", "c1")]), ("polar", [("notes", "c2")])]
      ["x"]).2.1 (by decide) ("radial", [("build", "c1")]) (by decide),
   (resolveTheme_precedence [("polar", [("notes", "c2")])] ["x"]).2.2.1
      (by decide) (by decide) "polar" [("notes", "c2")] [] rfl,
   (resolveTheme_precedence [] ["x"]).2.2.2 rfl⟩

/-! ### C8: non-emptiness of the type-scroll backing list -/

theorem entryTypesOfPalette_length : ∀ (p : Palette),
    (∀ pr ∈ p, (EntryType.fromStringPair pr.1 pr.2).isSome = true) →
    ∃ ets, entryTypesOfPalette p = some ets ∧ ets.length = p.length
  | [] => fun _ => ⟨[], rfl, rfl⟩
  | pr :: rest => fun h => by
    obtain ⟨e, he⟩ := Option.isSome_iff_exists.mp (h pr (List.mem_cons_self pr rest))
    obtain ⟨ets, hets, hlen⟩ :=
      entryTypesOfPalette_length rest (fun q hq => h q (List.mem_cons_of_mem pr hq))
    refine ⟨e :: ets, ?_, by simp [hlen]⟩
    have hets2 : List.mapM (fun pr => EntryType.fromStringPair pr.1 pr.2) rest = some ets :=
      hets
    show List.mapM (fun pr => EntryType.fromStringPair pr.1 pr.2) (pr :: rest)
      = some (e :: ets)
    rw [List.mapM_cons, he, hets2]
    rfl

theorem resolveTheme_mem (cat : Catalog) (cands : List String) (hne : cat ≠ []) :
    ∃ tp ∈ cat, resolveTheme cat cands = some tp.2 := by
  cases hm : findThemeMatch cands cat with
  | some p =>
    obtain ⟨c, hc, hfind⟩ := findThemeMatch_eq_some cat cands p hm
    obtain ⟨tp, htp, hcon, hp⟩ := findInCatalog_eq_some c cat p hfind
    exact ⟨tp, htp, by unfold resolveTheme; rw [hm, hp]⟩
  | none =>
    cases hf : cat.find? (fun x => x.1 == "radial") with
    | some tp =>
      exact ⟨tp, List.mem_of_find?_eq_some hf, by unfold resolveTheme; rw [hm, hf]⟩
    | none =>
      cases cat with
      | nil => exact absurd rfl hne
      | cons tp rest =>
        refine ⟨tp, List.mem_cons_self tp rest, ?_⟩
        unfold resolveTheme
        rw [hm, hf]

/-- C8 counterexample: the resolution does NOT fall back on an empty palette.
With catalog `{radial: [], polar: [one entry]}` and a matching `radial`
candidate, the pipeline returns an EMPTY backing list for the type scroll
and does not abort, even though a non-empty palette exists, contradicting
the claim. -/
theorem queryEntryTypes_empty_palette_counterexample :
    queryEntryTypes [("radial", []), ("polar", [("x", "rgb(\"#010203\")")])] ["radial"]
      = some [] := by
  decide

/-- C8 amended: the resolver never falls back because of an empty palette —
it selects by substring match, then `"radial"`, then the first entry, and the
backing list of the type scroll is non-empty only under the proviso that the
selected palette is non-empty.  In particular, when the catalog is non-empty,
every cataloged palette is non-empty, and every palette color decodes, the
pipeline succeeds with a non-empty list; the tool aborts only when the
catalog itself is empty. -/
theorem queryEntryTypes_nonempty_amended (cat : Catalog) (cands : List String)
    (hne : cat ≠ [])
    (hpal : ∀ tp ∈ cat, tp.2 ≠ ([] : Palette))
    (hdec : ∀ tp ∈ cat, ∀ pr ∈ tp.2, (EntryType.fromStringPair pr.1 pr.2).isSome = true) :
    ∃ ets, queryEntryTypes cat cands = some ets ∧ ets ≠ [] := by
  obtain ⟨tp, htp, hres⟩ := resolveTheme_mem cat cands hne
  obtain ⟨ets, hets, hlen⟩ := entryTypesOfPalette_length tp.2 (hdec tp htp)
  refine ⟨ets, ?_, ?_⟩
  · unfold queryEntryTypes
    rw [hres]
    exact hets
  · intro hnil
    apply hpal tp htp
    rw [hnil] at hlen
    exact (List.length_eq_zero.mp hlen.symm)

/-- Witness for C8 amended at a one-theme catalog with a decodable color. -/
theorem queryEntryTypes_nonempty_amended_witness :
    ∃ ets, queryEntryTypes [("radial", [("build", "rgb(\"#FF0000\")")])] ["radial"]
        = some ets ∧ ets ≠ [] :=
  queryEntryTypes_nonempty_amended [("radial", [("build", "rgb(\"#FF0000\")")])] ["radial"]
    (by decide) (by decide) (by decide)

/-! ### C9: dependence of the resolver on the catalog's iteration order -/

theorem find?_eq_filter_head {α : Type} (p : α → Bool) : ∀ (l : List α),
    l.find? p = (l.filter p).head?
  | [] => rfl
  | a :: l => by
    by_cases h : p a = true
    · rw [List.find?_cons_of_pos _ h, List.filter_cons_of_pos h]
      rfl
    · rw [List.find?_cons_of_neg _ h, List.filter_cons_of_neg h, find?_eq_filter_head p l]

theorem findInCatalog_eq_filter (c : String) : ∀ (cat : Catalog),
    findInCatalog c cat
      = ((cat.filter (fun tp => strContains c tp.1)).head?).map Prod.snd
  | [] => rfl
  | tp :: rest => by
    unfold findInCatalog
    by_cases h : strContains c tp.1 = true
    · rw [if_pos h, @List.filter_cons_of_pos _ (fun tq => strContains c tq.1) tp rest h]
      rfl
    · rw [if_neg h, @List.filter_cons_of_neg _ (fun tq => strContains c tq.1) tp rest h,
        findInCatalog_eq_filter c rest]

theorem perm_eq_of_length_le_one {α : Type} : ∀ (l1 l2 : List α),
    l1.Perm l2 → l1.length ≤ 1 → l1 = l2
  | [], l2 => fun h _ => (List.perm_nil.mp h.symm).symm
  | [a], l2 => fun h _ => (List.perm_singleton.mp h.symm).symm
  | a :: b :: t, l2 => fun _ hl => by
    simp [List.length_cons] at hl

theorem length_filter_le_of_imp {α : Type} (p q : α → Bool) : ∀ (l : List α),
    (∀ a ∈ l, p a = true → q a = true) →
    (l.filter p).length ≤ (l.filter q).length
  | [] => fun _ => Nat.le_refl 0
  | a :: l => fun h => by
    have ih := length_filter_le_of_imp p q l (fun b hb => h b (List.mem_cons_of_mem a hb))
    by_cases hp : p a = true
    · have hq := h a (List.mem_cons_self a l) hp
      rw [List.filter_cons_of_pos hp, List.filter_cons_of_pos hq]
      simpa using Nat.succ_le_succ ih
    · rw [List.filter_cons_of_neg hp]
      by_cases hq : q a = true
      · rw [List.filter_cons_of_pos hq]
        exact Nat.le_trans ih (by simp [Nat.le_succ])
      · rw [List.filter_cons_of_neg hq]
        exact ih

theorem length_filter_key_le_one (k : String) : ∀ (l : Catalog),
    (l.map Prod.fst).Nodup →
    (l.filter (fun tp => tp.1 == k)).length ≤ 1
  | [] => fun _ => by simp
  | tp :: rest => fun h => by
    simp only [List.map_cons, List.nodup_cons] at h
    by_cases hk : (tp.1 == k) = true
    · rw [@List.filter_cons_of_pos _ (fun tq => tq.1 == k) tp rest hk]
      have hrest : rest.filter (fun tq => tq.1 == k) = [] := by
        rw [List.filter_eq_nil_iff]
        intro tq hq hkq
        apply h.1
        have h1 : tq.1 = k := beq_iff_eq.mp hkq
        have h2 : tp.1 = k := beq_iff_eq.mp hk
        exact List.mem_map.mpr ⟨tq, hq, h1.trans h2.symm⟩
      rw [hrest]
      simp
    · rw [@List.filter_cons_of_neg _ (fun tq => tq.1 == k) tp rest hk]
      exact length_filter_key_le_one k rest h.2

/-- C9 counterexample: two catalogs holding the same key/palette pairs
(a permutation — the same `HashMap` contents under two iteration orders)
yield DIFFERENT resolver outputs when the candidate text contains two theme
names, refuting the claim that the output does not depend on the map's
iteration order. -/
theorem resolveTheme_order_dependence_counterexample :
    List.Perm
        ([("a", [("x", "cx")]), ("b", [("y", "cy")])] : Catalog)
        ([("b", [("y", "cy")]), ("a", [("x", "cx")])] : Catalog)
    ∧ resolveTheme [("a", [("x", "cx")]), ("b", [("y", "cy")])] ["ab"]
        = some [("x", "cx")]
    ∧ resolveTheme [("b", [("y", "cy")]), ("a", [("x", "cx")])] ["ab"]
        = some [("y", "cy")]
    ∧ ([("x", "cx")] : Palette) ≠ [("y", "cy")] := by
  refine ⟨List.Perm.swap _ _ _, by decide, by decide, by decide⟩

/-- C9 amended: the resolver is a pure function of the catalog's iteration
sequence and the candidate list, but its output can depend on the iteration
order.  Order-independence holds under the provisos that at most one
cataloged theme matches any candidate and that, when none matches, the
catalog has a `"radial"` key or at most one entry: then any two iteration
orders of the same catalog (permutations, with the map's keys unique) give
the identical palette. -/
theorem resolveTheme_order_invariance_amended (cat1 cat2 : Catalog) (cands : List String)
    (hperm : cat1.Perm cat2)
    (hkeys : (cat1.map Prod.fst).Nodup)
    (huniq : (cat1.filter (fun tp => cands.any (fun c => strContains c tp.1))).length ≤ 1)
    (hfall : (cat1.find? (fun tp => tp.1 == "radial")).isSome = true
      ∨ cat1.length ≤ 1
      ∨ ∃ tp ∈ cat1, ∃ c ∈ cands, strContains c tp.1 = true) :
    resolveTheme cat1 cands = resolveTheme cat2 cands := by
  have hinner : ∀ c ∈ cands, findInCatalog c cat1 = findInCatalog c cat2 := by
    intro c hc
    rw [findInCatalog_eq_filter, findInCatalog_eq_filter]
    have hpf : (cat1.filter (fun tp => strContains c tp.1)).Perm
        (cat2.filter (fun tp => strContains c tp.1)) := hperm.filter _
    have hle : (cat1.filter (fun tp => strContains c tp.1)).length ≤ 1 :=
      Nat.le_trans
        (length_filter_le_of_imp _ _ cat1
          (fun tp _ hp => List.any_eq_true.mpr ⟨c, hc, hp⟩))
        huniq
    rw [perm_eq_of_length_le_one _ _ hpf hle]
  have hmatch : ∀ (cs : List String), (∀ c ∈ cs, findInCatalog c cat1 = findInCatalog c cat2) →
      findThemeMatch cs cat1 = findThemeMatch cs cat2 := by
    intro cs
    induction cs with
    | nil => intro _; rfl
    | cons c cs ih =>
      intro h
      unfold findThemeMatch
      rw [h c (List.mem_cons_self c cs)]
      cases hcc : findInCatalog c cat2 with
      | some p => rfl
      | none => exact ih (fun c2 hc2 => h c2 (List.mem_cons_of_mem c hc2))
  have hA : findThemeMatch cands cat1 = findThemeMatch cands cat2 := hmatch cands hinner
  have hradial : cat1.find? (fun tp => tp.1 == "radial")
      = cat2.find? (fun tp => tp.1 == "radial") := by
    rw [find?_eq_filter_head, find?_eq_filter_head]
    have hpf : (cat1.filter (fun tp => tp.1 == "radial")).Perm
        (cat2.filter (fun tp => tp.1 == "radial")) := hperm.filter _
    rw [perm_eq_of_length_le_one _ _ hpf (length_filter_key_le_one "radial" cat1 hkeys)]
  unfold resolveTheme
  rw [hA, hradial]
  cases hm : findThemeMatch cands cat2 with
  | some p => rfl
  | none =>
    cases hf : cat2.find? (fun tp => tp.1 == "radial") with
    | some tp => rfl
    | none =>
      have hlen : cat1.length ≤ 1 := by
        rcases hfall with hrad | hlen | hex
        · rw [hradial, hf] at hrad
          cases hrad
        · exact hlen
        · exfalso
          obtain ⟨tp, htp, c, hc, hcon⟩ := hex
          have hm1 : findThemeMatch cands cat1 = none := hA.trans hm
          have := (findThemeMatch_eq_none_iff cat1 cands).mp hm1 c hc
          exact (findInCatalog_eq_none_iff c cat1).mp this tp htp hcon
      rw [perm_eq_of_length_le_one _ _ hperm hlen]

/-- Witness for C9 amended: two iteration orders of a two-theme catalog in
which exactly one theme matches the candidate give the same palette. -/
theorem resolveTheme_order_invariance_amended_witness :
    resolveTheme [("a", [("x", "cx")]), ("b", [("y", "cy")])] ["a!"]
      = resolveTheme [("b", [("y", "cy")]), ("a", [("x", "cx")])] ["a!"] :=
  resolveTheme_order_invariance_amended
    [("a", [("x", "cx")]), ("b", [("y", "cy")])]
    [("b", [("y", "cy")]), ("a", [("x", "cx")])]
    ["a!"] (List.Perm.swap _ _ _) (by decide) (by decide)
    (Or.inr (Or.inr (by decide)))

/-! ### Lemmas about the filesystem model -/

theorem createDirTolerant_ok_files {fs fs2 : FS} {p : String}
    (h : createDirTolerant fs p = .ok fs2) : fs2.files = fs.files := by
  unfold createDirTolerant at h
  split_ifs at h <;> cases h <;> rfl

theorem createDirTolerant_dirs_sub {fs fs2 : FS} {p : String}
    (h : createDirTolerant fs p = .ok fs2) : ∀ d ∈ fs.dirs, d ∈ fs2.dirs := by
  unfold createDirTolerant at h
  split_ifs at h <;> cases h
  · exact fun d hd => hd
  · exact fun d hd => hd
  · exact fun d hd => List.mem_cons_of_mem _ hd

theorem createDirTolerant_mem {fs fs2 : FS} {p : String}
    (h : createDirTolerant fs p = .ok fs2) :
    p ∈ fs2.dirs ∨ (lookupF fs2.files p).isSome = true := by
  unfold createDirTolerant at h
  split_ifs at h with h1 h2 h3 <;> cases h
  · exact Or.inl h1
  · exact Or.inr h2
  · exact Or.inl (List.mem_cons_self _ _)

theorem createDirTolerant_exists (fs : FS) (p : String)
    (h : p ∈ fs.dirs ∨ (lookupF fs.files p).isSome = true) :
    createDirTolerant fs p = .ok fs := by
  unfold createDirTolerant
  rcases h with h | h
  · rw [if_pos h]
  · by_cases h1 : p ∈ fs.dirs
    · rw [if_pos h1]
    · rw [if_neg h1, if_pos h]

theorem createDirChain_ok_files : ∀ (ps : List String) (fs fs2 : FS) (acc : String),
    createDirChain fs acc ps = .ok fs2 → fs2.files = fs.files
  | [], fs, fs2, acc => fun h => by cases h; rfl
  | p :: rest, fs, fs2, acc => fun h => by
    unfold createDirChain at h
    split at h
    next fs3 heq =>
      exact (createDirChain_ok_files rest fs3 fs2 _ h).trans (createDirTolerant_ok_files heq)
    next => cases h

theorem createDirChain_ok_dirs_sub : ∀ (ps : List String) (fs fs2 : FS) (acc : String),
    createDirChain fs acc ps = .ok fs2 → ∀ d ∈ fs.dirs, d ∈ fs2.dirs
  | [], fs, fs2, acc => fun h => by cases h; exact fun d hd => hd
  | p :: rest, fs, fs2, acc => fun h => by
    unfold createDirChain at h
    split at h
    next fs3 heq =>
      exact fun d hd =>
        createDirChain_ok_dirs_sub rest fs3 fs2 _ h d (createDirTolerant_dirs_sub heq d hd)
    next => cases h

theorem createDirChain_ok_mem : ∀ (ps : List String) (fs fs2 : FS) (acc : String),
    createDirChain fs acc ps = .ok fs2 →
    ∀ q ∈ chainPaths acc ps, q ∈ fs2.dirs ∨ (lookupF fs2.files q).isSome = true
  | [], fs, fs2, acc => fun _ q hq => absurd hq (by simp [chainPaths])
  | p :: rest, fs, fs2, acc => fun h => by
    unfold createDirChain at h
    split at h
    next fs3 heq =>
      intro q hq
      unfold chainPaths at hq
      rcases List.mem_cons.mp hq with rfl | hq2
      · rcases createDirTolerant_mem heq with hd | hf
        · exact Or.inl (createDirChain_ok_dirs_sub rest fs3 fs2 _ h _ hd)
        · refine Or.inr ?_
          rw [createDirChain_ok_files rest fs3 fs2 _ h]
          exact hf
      · exact createDirChain_ok_mem rest fs3 fs2 _ h q hq2
    next => cases h

theorem createDirChain_all_exist : ∀ (ps : List String) (fs : FS) (acc : String),
    (∀ q ∈ chainPaths acc ps, q ∈ fs.dirs ∨ (lookupF fs.files q).isSome = true) →
    createDirChain fs acc ps = .ok fs
  | [], fs, acc => fun _ => rfl
  | p :: rest, fs, acc => fun h => by
    have h1 : (acc ++ "/" ++ p) ∈ fs.dirs ∨
        (lookupF fs.files (acc ++ "/" ++ p)).isSome = true :=
      h _ (by unfold chainPaths; exact List.mem_cons_self _ _)
    unfold createDirChain
    rw [createDirTolerant_exists fs _ h1]
    exact createDirChain_all_exist rest fs _
      (fun q hq => h q (by unfold chainPaths; exact List.mem_cons_of_mem _ hq))

theorem createFileNew_ok {fs fs3 : FS} {path content : String}
    (h : createFileNew fs path content = .ok fs3) :
    lookupF fs.files path = none ∧ fs3 = { fs with files := (path, content) :: fs.files } := by
  unfold createFileNew at h
  split at h
  next v heq => cases h
  next heq =>
    split_ifs at h with hp
    · exact ⟨heq, by cases h; rfl⟩

theorem createFileNew_exists {fs : FS} {path : String} (content : String)
    (h : (lookupF fs.files path).isSome = true) :
    createFileNew fs path content = .error (.entryAlreadyExists, fs) := by
  unfold createFileNew
  obtain ⟨v, hv⟩ := Option.isSome_iff_exists.mp h
  rw [hv]

theorem appendToFile_ok {fs fs' : FS} {path extra : String}
    (h : appendToFile fs path extra = .ok fs') :
    ∃ old, lookupF fs.files path = some old
      ∧ fs' = { fs with files := appendUpd path extra fs.files } := by
  unfold appendToFile at h
  split at h
  next old heq => cases h; exact ⟨old, heq, rfl⟩
  next heq => cases h

theorem lookupF_appendUpd_same : ∀ (files : List (String × String)) (path extra : String),
    lookupF (appendUpd path extra files) path = (lookupF files path).map (fun v => v ++ extra)
  | [], _, _ => rfl
  | kv :: rest, path, extra => by
    have ih := lookupF_appendUpd_same rest path extra
    by_cases h : kv.1 = path
    · simp [appendUpd, lookupF, h]
    · simp [appendUpd, lookupF, h, ih]

theorem lookupF_appendUpd_ne : ∀ (files : List (String × String)) (path extra k : String),
    k ≠ path → lookupF (appendUpd path extra files) k = lookupF files k
  | [], _, _, _ => fun _ => rfl
  | kv :: rest, path, extra, k => fun hk => by
    have ih := lookupF_appendUpd_ne rest path extra k hk
    by_cases h : kv.1 = path
    · have hne : ¬ kv.1 = k := fun he => hk (he.symm.trans h)
      have hne2 : ¬ path = k := fun he => hk he.symm
      simp [appendUpd, lookupF, h, hne, hne2, ih]
    · by_cases h2 : kv.1 = k
      · simp [appendUpd, lookupF, h, h2, hk]
      · simp [appendUpd, lookupF, h, h2, ih]

theorem lookupF_isSome_appendUpd {files : List (String × String)} {k : String}
    (path extra : String) (h : (lookupF files k).isSome = true) :
    (lookupF (appendUpd path extra files) k).isSome = true := by
  by_cases hk : k = path
  · subst hk
    rw [lookupF_appendUpd_same]
    obtain ⟨v, hv⟩ := Option.isSome_iff_exists.mp h
    rw [hv]
    rfl
  · rw [lookupF_appendUpd_ne files path extra k hk]
    exact h

theorem lookupF_isSome_cons (kv : String × String) (files : List (String × String))
    (k : String) (h : (lookupF files k).isSome = true) :
    (lookupF (kv :: files) k).isSome = true := by
  unfold lookupF
  by_cases hk : kv.1 = k <;> simp [hk, h]

theorem strData_append (a b : String) : (a ++ b).data = a.data ++ b.data := by
  cases a
  cases b
  rfl

theorem entryFilePath_ne_entriesTyp (title : String) : entryFilePathOf title ≠ entriesTyp := by
  intro he
  have hd : (entryFilePathOf title).data = entriesTyp.data := congrArg String.data he
  simp only [entryFilePathOf, entryDirPath] at hd
  rw [strData_append, strData_append, strData_append, strData_append] at hd
  simp only [List.append_assoc] at hd
  have hets : entriesTyp.data
      = ("./entries/" : String).data ++ ("entries.typ" : String).data := by decide
  rw [hets] at hd
  have hmid : (slugPath title).data ++
      (("/" : String).data ++ ((entryFileNameOf title).data ++ (".typ" : String).data))
      = ("entries.typ" : String).data :=
    List.append_cancel_left hd
  have hsl : slashChar ∈ (slugPath title).data ++
      (("/" : String).data ++ ((entryFileNameOf title).data ++ (".typ" : String).data)) :=
    List.mem_append.mpr (Or.inr (List.mem_append.mpr (Or.inl (by decide))))
  rw [hmid] at hsl
  exact absurd hsl (by decide)

/-! ### C1: artifacts of a successful run -/

/-- The state after a successful run with title `"My Entry"` on `fsA`. -/
def fsME : FS :=
  ⟨["./entries/my_entry", ".", "./entries"],
   [("./entries/my_entry/my_entry.typ", entryContent "body" "My Entry" "build" "d" "Ada" "w"),
    (entriesTyp, "\n\n#include \"/entries/my_entry/my_entry.typ\"")]⟩

/-- C1 counterexample: with title `"My Entry"` the run succeeds, but the
claimed file `./entries/<slug_path>/<title_leaf>.typ` (that is,
`./entries/my_entry/My Entry.typ`, the title leaf being `"My Entry"`) does
NOT exist — the created file's name is the last segment of the slug path,
`my_entry.typ`. -/
theorem materialize_title_leaf_filename_counterexample :
    lastSegment ("My Entry") = "My Entry"
    ∧ materializeEntry ⟨"body", "My Entry", "build", "d", "Ada", "w"⟩ fsA = .ok fsME
    ∧ lookupF fsME.files ("./entries/my_entry/My Entry.typ") = none
    ∧ lookupF fsME.files ("./entries/my_entry/my_entry.typ")
        = some (entryContent "body" "My Entry" "build" "d" "Ada" "w") := by
  decide

/-- C1 amended: after a successful run, the file at
`./entries/<slug_path>/<slug_leaf>.typ` — where `slug_leaf` is the last
`/`-separated segment of the slug path, not of the raw title — exists and
holds exactly the instantiated template (whose title field is the raw title
leaf), and `./entries/entries.typ` equals its previous contents followed by
exactly the bytes `"\n\n#include \"<entry_file_path with its leading '.'
stripped>\""`, with no other change to the aggregator's content. -/
theorem materialize_artifact_paths_amended (inp : MaterializeInput) (fs fs' : FS)
    (h : materializeEntry inp fs = .ok fs') :
    lookupF fs'.files (entryFilePathOf inp.title)
      = some (entryContent inp.section_ (lastSegment inp.title) inp.entryType inp.dateStr
          inp.author inp.witness)
    ∧ ∃ old, lookupF fs.files entriesTyp = some old
        ∧ lookupF fs'.files entriesTyp
          = some (old ++ ("\n\n#include \""
              ++ trimStartMatches (entryFilePathOf inp.title) "." ++ "\"")) := by
  simp only [materializeEntry] at h
  by_cases hcond : (lastSegment inp.title).length = 0
  · rw [if_pos hcond] at h
    cases h
  · rw [if_neg hcond] at h
    cases hchain : createDirChain fs ((rustSplit (entryDirPath inp.title) slashChar).headD "")
        ((rustSplit (entryDirPath inp.title) slashChar).tail) with
    | error e =>
      simp only [hchain] at h
      cases h
    | ok fs2 =>
      simp only [hchain] at h
      cases hnew : createFileNew fs2 (entryFilePathOf inp.title)
          (entryContent inp.section_ (lastSegment inp.title) inp.entryType inp.dateStr
            inp.author inp.witness) with
      | error e =>
        simp only [hnew] at h
        cases h
      | ok fs3 =>
        simp only [hnew] at h
        obtain ⟨hnone, hfs3⟩ := createFileNew_ok hnew
        obtain ⟨old, hold, hfs'⟩ := appendToFile_ok h
        have hfiles3 : fs3.files
            = (entryFilePathOf inp.title,
                entryContent inp.section_ (lastSegment inp.title) inp.entryType inp.dateStr
                  inp.author inp.witness) :: fs2.files := by
          rw [hfs3]
        have hfiles' : fs'.files
            = appendUpd entriesTyp
                ("\n\n#include \"" ++ trimStartMatches (entryFilePathOf inp.title) "." ++ "\"")
                ((entryFilePathOf inp.title,
                  entryContent inp.section_ (lastSegment inp.title) inp.entryType inp.dateStr
                    inp.author inp.witness) :: fs2.files) := by
          rw [hfs', hfiles3]
        have hfiles2 : fs2.files = fs.files := createDirChain_ok_files _ _ _ _ hchain
        have hne := entryFilePath_ne_entriesTyp inp.title
        have hold2 : lookupF
            ((entryFilePathOf inp.title,
              entryContent inp.section_ (lastSegment inp.title) inp.entryType inp.dateStr
                inp.author inp.witness) :: fs2.files) entriesTyp = some old := by
          rw [← hfiles3]
          exact hold
        have hskip : lookupF
            ((entryFilePathOf inp.title,
              entryContent inp.section_ (lastSegment inp.title) inp.entryType inp.dateStr
                inp.author inp.witness) :: fs2.files) entriesTyp
            = lookupF fs2.files entriesTyp := by
          simp [lookupF, hne]
        constructor
        · rw [hfiles', lookupF_appendUpd_ne _ _ _ _ hne]
          simp [lookupF]
        · refine ⟨old, ?_, ?_⟩
          · rw [hskip, hfiles2] at hold2
            exact hold2
          · rw [hfiles', lookupF_appendUpd_same, hold2]
            rfl

/-- Witness for C1 amended at the S1 scenario. -/
theorem materialize_artifact_paths_amended_witness :
    lookupF fsS1.files (entryFilePathOf inpS1.title)
      = some (entryContent inpS1.section_ (lastSegment inpS1.title) inpS1.entryType
          inpS1.dateStr inpS1.author inpS1.witness)
    ∧ ∃ old, lookupF fsA.files entriesTyp = some old
        ∧ lookupF fsS1.files entriesTyp
          = some (old ++ ("\n\n#include \""
              ++ trimStartMatches (entryFilePathOf inpS1.title) "." ++ "\"")) :=
  materialize_artifact_paths_amended inpS1 fsA fsS1 (by decide)

/-! ### C3: the second run with identical input -/

/-- C3: if a run succeeds, a second run with the identical menu input finds
every step of the directory chain already satisfied (AlreadyExists is
tolerated and the chain succeeds without changing the state), the exclusive
entry-file creation fails fatally with EntryAlreadyExists, and the state at
abort is exactly the state after the first run — in particular not a byte is
appended to `./entries/entries.typ` by the second run. -/
theorem materialize_second_run (inp : MaterializeInput) (fs fs' : FS)
    (h : materializeEntry inp fs = .ok fs') :
    createDirChain fs' ((rustSplit (entryDirPath inp.title) slashChar).headD "")
        ((rustSplit (entryDirPath inp.title) slashChar).tail) = .ok fs'
    ∧ materializeEntry inp fs' = .error (.entryAlreadyExists, fs') := by
  simp only [materializeEntry] at h
  by_cases hcond : (lastSegment inp.title).length = 0
  · rw [if_pos hcond] at h
    cases h
  · rw [if_neg hcond] at h
    cases hchain : createDirChain fs ((rustSplit (entryDirPath inp.title) slashChar).headD "")
        ((rustSplit (entryDirPath inp.title) slashChar).tail) with
    | error e =>
      simp only [hchain] at h
      cases h
    | ok fs2 =>
      simp only [hchain] at h
      cases hnew : createFileNew fs2 (entryFilePathOf inp.title)
          (entryContent inp.section_ (lastSegment inp.title) inp.entryType inp.dateStr
            inp.author inp.witness) with
      | error e =>
        simp only [hnew] at h
        cases h
      | ok fs3 =>
        simp only [hnew] at h
        obtain ⟨hnone, hfs3⟩ := createFileNew_ok hnew
        obtain ⟨old, hold, hfs'⟩ := appendToFile_ok h
        have hdirs3 : fs3.dirs = fs2.dirs := by rw [hfs3]
        have hfiles3 : fs3.files
            = (entryFilePathOf inp.title,
                entryContent inp.section_ (lastSegment inp.title) inp.entryType inp.dateStr
                  inp.author inp.witness) :: fs2.files := by
          rw [hfs3]
        have hdirs' : fs'.dirs = fs2.dirs := by rw [hfs', hdirs3]
        have hfiles' : fs'.files
            = appendUpd entriesTyp
                ("\n\n#include \"" ++ trimStartMatches (entryFilePathOf inp.title) "." ++ "\"")
                ((entryFilePathOf inp.title,
                  entryContent inp.section_ (lastSegment inp.title) inp.entryType inp.dateStr
                    inp.author inp.witness) :: fs2.files) := by
          rw [hfs', hfiles3]
        have hmem := createDirChain_ok_mem _ _ _ _ hchain
        have hall : ∀ q ∈ chainPaths ((rustSplit (entryDirPath inp.title) slashChar).headD "")
            ((rustSplit (entryDirPath inp.title) slashChar).tail),
            q ∈ fs'.dirs ∨ (lookupF fs'.files q).isSome = true := by
          intro q hq
          rcases hmem q hq with hd | hf
          · refine Or.inl ?_
            rw [hdirs']
            exact hd
          · refine Or.inr ?_
            rw [hfiles']
            exact lookupF_isSome_appendUpd _ _ (lookupF_isSome_cons _ _ _ hf)
        have hchain2 := createDirChain_all_exist _ fs' _ hall
        refine ⟨hchain2, ?_⟩
        have hsome : (lookupF fs'.files (entryFilePathOf inp.title)).isSome = true := by
          rw [hfiles']
          exact lookupF_isSome_appendUpd _ _ (by simp [lookupF])
        simp only [materializeEntry]
        rw [if_neg hcond]
        simp only [hchain2,
          createFileNew_exists
            (entryContent inp.section_ (lastSegment inp.title) inp.entryType inp.dateStr
              inp.author inp.witness) hsome]

/-- Witness for C3 at the S1/S2 scenario. -/
theorem materialize_second_run_witness :
    createDirChain fsS1 ((rustSplit (entryDirPath inpS1.title) slashChar).headD "")
        ((rustSplit (entryDirPath inpS1.title) slashChar).tail) = .ok fsS1
    ∧ materializeEntry inpS1 fsS1 = .error (.entryAlreadyExists, fsS1) :=
  materialize_second_run inpS1 fsA fsS1 (by decide)

end AddEntry
